import Mathlib

/-!
Verification of the OPC UA / MQTT bridge script
(`OPC-UA (BiDirectional - With MQTT).py`).

The Python source is shallowly embedded: the pure helpers (`to_bool`,
`parse_incoming_payload`, the topic-map construction) become Lean
functions over `String` / `List Char`; the callback bodies
(`on_message`, `datachange_notification`, `publish_initial_snapshot`)
become pure functions from their inputs (plus explicit fault flags for
the external calls that may raise) to the list of externally visible
actions they perform; the `stop` shutdown sequence becomes a small
try/except/finally combinator model producing the ordered trace of
attempted steps.  `json.loads` is an external library call and is
modelled by passing its result (`Option JsonV`) as an explicit input.
-/

namespace Bridge

/-- Result of Python's `json.loads` when it succeeds: a JSON value.
Numbers are restricted to integers (the payloads of this bridge are
bool/int), which is enough for every claim below. -/
inductive JsonV where
  | str (s : String)
  | num (n : Int)
  | bool (b : Bool)
  | null
  | arr (xs : List JsonV)
  | obj (fields : List (String × JsonV))

/-- Declared value kind of a node, from `NODES_SPEC` (Python `bool` /
`int`; `other` is the fallback branch of `parse_incoming_payload`). -/
inductive PyKind where
  | bool
  | int
  | other
deriving DecidableEq

/-- Python `str.strip()` on the character list: drop leading and
trailing whitespace. -/
def stripChars (cs : List Char) : List Char :=
  ((cs.dropWhile Char.isWhitespace).reverse.dropWhile Char.isWhitespace).reverse

/-- Normalisation performed at the top of `to_bool`, i.e.
`str(s).strip().lower()` — this models the first statement of
`to_bool` (line 84 of the source). -/
def normTok (s : String) : String :=
  String.mk ((stripChars s.data).map Char.toLower)

/-- The tokens `to_bool` maps to `True` (source line 85). -/
def TRUE_TOKENS : List String := ["1", "true", "t", "on", "yes", "y"]

/-- The tokens `to_bool` maps to `False` (source line 87). -/
def FALSE_TOKENS : List String := ["0", "false", "f", "off", "no", "n"]

/-- Embeds `to_bool` (source lines 83–89).  `none` models the raised
`ValueError`. -/
def to_bool (s : String) : Option Bool :=
  let t := normTok s
  if t ∈ TRUE_TOKENS then some true
  else if t ∈ FALSE_TOKENS then some false
  else none

theorem true_tokens_not_false {t : String} (h : t ∈ TRUE_TOKENS) :
    t ∉ FALSE_TOKENS := by
  simp only [TRUE_TOKENS, List.mem_cons, List.not_mem_nil, or_false] at h
  rcases h with h | h | h | h | h | h <;> subst h <;> decide

/-- C1: boolean decoding returns `true` exactly on the stripped,
lower-cased tokens {1,true,t,on,yes,y}, `false` exactly on
{0,false,f,off,no,n}, and fails on every other token. -/
theorem to_bool_correct (s : String) :
    (to_bool s = some true ↔ normTok s ∈ TRUE_TOKENS) ∧
    (to_bool s = some false ↔ normTok s ∈ FALSE_TOKENS) ∧
    (to_bool s = none ↔ (normTok s ∉ TRUE_TOKENS ∧ normTok s ∉ FALSE_TOKENS)) := by
  unfold to_bool
  by_cases h1 : normTok s ∈ TRUE_TOKENS
  · have h2 := true_tokens_not_false h1
    simp [h1, h2]
  · by_cases h2 : normTok s ∈ FALSE_TOKENS
    · simp [h1, h2]
    · simp [h1, h2]

/-! ### Integer codec: Python `int(text)` and `str(int)` -/

/-- Numeric value of a decimal digit character. -/
def digitVal (c : Char) : Nat := c.toNat - 48

/-- The decimal digit character for `n < 10`. -/
def digitChar (n : Nat) : Char := Char.ofNat (48 + n)

/-- Accumulate one decimal digit. -/
def digitsStep (a : Nat) (c : Char) : Nat := a * 10 + digitVal c

/-- Continue parsing a CPython digit group after its first digit:
further digits, with single underscores allowed only between digits
(`1_000` is accepted, `1__0`, `_1`, `1_` are not). -/
def digitsVal2 : Nat → List Char → Option Nat
  | acc, [] => some acc
  | acc, c :: cs =>
    if c = '_' then
      match cs with
      | [] => none
      | d :: cs2 => if d.isDigit then digitsVal2 (digitsStep acc d) cs2 else none
    else if c.isDigit then digitsVal2 (digitsStep acc c) cs
    else none

/-- Parse a CPython digit group: one leading digit, then `digitsVal2`. -/
def parseDigitGroup : List Char → Option Nat
  | [] => none
  | c :: cs => if c.isDigit then digitsVal2 (digitVal c) cs else none

/-- CPython `int(text)` after stripping: optional sign, then a digit
group. -/
def pyIntOfChars (cs : List Char) : Option Int :=
  match cs with
  | [] => none
  | c :: rest =>
    if c = '+' then (parseDigitGroup rest).map Int.ofNat
    else if c = '-' then (parseDigitGroup rest).map (fun n => -(Int.ofNat n))
    else (parseDigitGroup cs).map Int.ofNat

/-- Embeds `int(str(raw).strip())` — the integer branch of
`parse_incoming_payload` (source line 116).  `none` models the raised
`ValueError`.  The embedding covers CPython's `int` on the ASCII
fragment (sign, `0`–`9` digits, underscore separators, the common
whitespace characters); the runtime additionally accepts Unicode
decimal digits and further Unicode/control whitespace, which this
model does not represent — so no theorem below asserts an exact
acceptance set for `pyInt`, only acceptance on signed-decimal inputs,
rejection of letter-containing tokens (true of the runtime as well),
and the round trip on canonical encodings. -/
def pyInt (s : String) : Option Int := pyIntOfChars (stripChars s.data)

/-- Grammar predicate matching `digitsVal2`: rest of a digit group of
the embedded parser.  (The embedding idealises CPython's `int` to the
ASCII fragment: `Char.isDigit` covers only `0`–`9`, while the runtime
additionally accepts Unicode decimal digits; the theorems below
therefore only ever assert acceptance facts on inputs inside this
fragment, never an exact acceptance set.) -/
def groupOK : List Char → Bool
  | [] => true
  | c :: cs =>
    if c = '_' then
      match cs with
      | [] => false
      | d :: cs2 => d.isDigit && groupOK cs2
    else c.isDigit && groupOK cs

/-- Grammar predicate: a full digit group of the embedded parser. -/
def digitGroupOK : List Char → Bool
  | [] => false
  | c :: cs => c.isDigit && groupOK cs

/-- Grammar predicate: text accepted by the embedded parser
`pyIntOfChars` (optional sign then a digit group). -/
def pyIntTextOK (cs : List Char) : Bool :=
  match cs with
  | [] => false
  | c :: rest =>
    if c = '+' then digitGroupOK rest
    else if c = '-' then digitGroupOK rest
    else digitGroupOK cs

/-- Modelled from the spec: "Integer decoding accepts base-10 signed
text" — a whitespace-stripped optional `+`/`-` sign followed by one or
more decimal digits, nothing else. -/
def isSignedDecimal (s : String) : Bool :=
  match stripChars s.data with
  | [] => false
  | c :: rest =>
    if c = '+' then !rest.isEmpty && rest.all Char.isDigit
    else if c = '-' then !rest.isEmpty && rest.all Char.isDigit
    else (c :: rest).all Char.isDigit

/-- Decimal digit characters of `n`, most significant first; `fuel`
bounds the recursion depth (any `fuel > n` is enough). -/
def natDigitsAux (fuel n : Nat) : List Char :=
  match fuel with
  | 0 => []
  | fuel' + 1 =>
    if n < 10 then [digitChar n]
    else natDigitsAux fuel' (n / 10) ++ [digitChar (n % 10)]

/-- Decimal digit characters of `n`, most significant first. -/
def natDigits (n : Nat) : List Char := natDigitsAux (n + 1) n

/-- Python `str` of an integer: decimal digits, `-`-prefixed when
negative (also what `json.dumps` emits for an `int`). -/
def encodeInt : Int → String
  | Int.ofNat m => String.mk (natDigits m)
  | Int.negSucc m => String.mk ('-' :: natDigits (m + 1))

/-! ### Node registry and topic maps -/

/-- Embeds `NODES_SPEC` (source lines 31–61): friendly name, NodeId string,
declared Python type. -/
def NODES_SPEC : List (String × String × PyKind) := [
  ("AcknFault", "ns=3;s=\"DB_OP\".\"AcknFault\"", PyKind.bool),
  ("ActNo", "ns=3;s=\"DB_OP\".\"ActNo\"", PyKind.int),
  ("JogLeft", "ns=3;s=\"DB_OP\".\"JogLeft\"", PyKind.bool),
  ("JogRight", "ns=3;s=\"DB_OP\".\"JogRight\"", PyKind.bool),
  ("OperationOFF", "ns=3;s=\"DB_OP\".\"OperationOFF\"", PyKind.bool),
  ("OperationON", "ns=3;s=\"DB_OP\".\"OperationON\"", PyKind.bool),
  ("SetpNo", "ns=3;s=\"DB_OP\".\"SetpNo\"", PyKind.int),
  ("S1", "ns=3;s=\"B_Bay1\"", PyKind.bool),
  ("S2", "ns=3;s=\"B_Bay2\"", PyKind.bool),
  ("S3", "ns=3;s=\"B_Bay3\"", PyKind.bool),
  ("LB", "ns=3;s=\"B_LB\"", PyKind.bool),
  ("B1", "ns=3;s=\"S_Bay1\"", PyKind.bool),
  ("B2", "ns=3;s=\"S_Bay2\"", PyKind.bool),
  ("B3", "ns=3;s=\"S_Bay3\"", PyKind.bool),
  ("B_LB", "ns=3;s=\"S_BayLB\"", PyKind.bool),
  ("P_Bay1", "ns=3;s=\"P_Bay1\"", PyKind.bool),
  ("P_Bay2", "ns=3;s=\"P_Bay2\"", PyKind.bool),
  ("P_Bay3", "ns=3;s=\"P_Bay3\"", PyKind.bool),
  ("P_BayLB", "ns=3;s=\"P_BayLB\"", PyKind.bool),
  ("K_Right", "ns=3;s=\"K_Right\"", PyKind.bool),
  ("K_Left", "ns=3;s=\"K_Left\"", PyKind.bool)]

/-- Embeds `MQTT_ROOT` (source line 73). -/
def MQTT_ROOT : String := "imhotep"

/-- Telemetry topic for a friendly name under a root
(f-string at source line 142). -/
def teleTopic (root name : String) : String := root ++ "/opc/tele/" ++ name

/-- Control topic for a friendly name under a root
(f-string at source line 143). -/
def cmdTopic (root name : String) : String := root ++ "/opc/cmd/" ++ name

/-- Telemetry topic bindings for a root and a name set. -/
def teleBindings (root : String) (names : List String) : List (String × String) :=
  names.map (fun n => (n, teleTopic root n))

/-- Control topic bindings for a root and a name set. -/
def cmdBindings (root : String) (names : List String) : List (String × String) :=
  names.map (fun n => (n, cmdTopic root n))

/-- The friendly names, in `NODES_SPEC` order. -/
def nodeNames : List String := NODES_SPEC.map (fun e => e.1)

/-- Embeds `self.telemetry_topics` (source line 142). -/
def telemetry_topics : List (String × String) := teleBindings MQTT_ROOT nodeNames

/-- Embeds `self.control_topics` (source line 143). -/
def control_topics : List (String × String) := cmdBindings MQTT_ROOT nodeNames

/-- Embeds `self.topic_to_name` (source line 144): inverse control map. -/
def topic_to_name : List (String × String) := control_topics.map (fun p => (p.2, p.1))

/-- Embeds `self.nodeid_to_name` (built at source line 226): NodeId string to
friendly name. -/
def nodeid_to_name : List (String × String) := NODES_SPEC.map (fun e => (e.2.1, e.1))

/-! ### Lemmas about the integer codec -/

theorem ne_special_of_isDigit (c : Char) (h : c.isDigit = true) :
    c ≠ '_' ∧ c ≠ '+' ∧ c ≠ '-' := by
  refine ⟨?_, ?_, ?_⟩ <;> intro he <;> subst he <;> exact absurd h (by decide)

theorem not_ws_of_isDigit (c : Char) (h : c.isDigit = true) :
    c.isWhitespace = false := by
  by_contra hne
  have hw : c.isWhitespace = true := by revert hne; cases c.isWhitespace <;> simp
  simp only [Char.isWhitespace, Bool.or_eq_true, decide_eq_true_eq] at hw
  have hq : c = ' ' ∨ c = '\t' ∨ c = '\r' ∨ c = '\n' := by tauto
  rcases hq with h1 | h1 | h1 | h1 <;> subst h1 <;> exact absurd h (by decide)

theorem digitChar_isDigit (n : Nat) (h : n < 10) : (digitChar n).isDigit = true := by
  interval_cases n <;> decide

theorem digitVal_digitChar (n : Nat) (h : n < 10) : digitVal (digitChar n) = n := by
  interval_cases n <;> decide

theorem dropWhile_eq_self {p : Char → Bool} {cs : List Char}
    (h : ∀ c ∈ cs, p c = false) : cs.dropWhile p = cs := by
  cases cs with
  | nil => rfl
  | cons c cs => rw [List.dropWhile_cons]; simp [h c (List.mem_cons_self _ _)]

theorem stripChars_of_no_ws {cs : List Char}
    (h : ∀ c ∈ cs, c.isWhitespace = false) : stripChars cs = cs := by
  unfold stripChars
  rw [dropWhile_eq_self h,
    dropWhile_eq_self (fun c hc => h c (List.mem_reverse.mp hc)),
    List.reverse_reverse]

theorem natDigitsAux_digits :
    ∀ fuel n, n < fuel → ∀ c ∈ natDigitsAux fuel n, c.isDigit = true := by
  intro fuel
  induction fuel with
  | zero => intro n hn; omega
  | succ fuel ih =>
    intro n hn c hc
    by_cases h10 : n < 10
    · simp only [natDigitsAux, if_pos h10, List.mem_singleton] at hc
      subst hc; exact digitChar_isDigit n h10
    · simp only [natDigitsAux, if_neg h10, List.mem_append, List.mem_singleton] at hc
      rcases hc with hc | hc
      · exact ih (n / 10) (by have := Nat.div_lt_self (by omega : 0 < n) (by omega : 1 < 10); omega) c hc
      · subst hc; exact digitChar_isDigit _ (Nat.mod_lt n (by omega))

theorem natDigitsAux_ne_nil :
    ∀ fuel n, n < fuel → natDigitsAux fuel n ≠ [] := by
  intro fuel
  induction fuel with
  | zero => intro n hn; omega
  | succ fuel _ =>
    intro n _
    by_cases h10 : n < 10 <;> simp [natDigitsAux, h10]

theorem natDigits_digits (n : Nat) : ∀ c ∈ natDigits n, c.isDigit = true :=
  natDigitsAux_digits (n + 1) n (Nat.lt_succ_self n)

theorem natDigits_ne_nil (n : Nat) : natDigits n ≠ [] :=
  natDigitsAux_ne_nil (n + 1) n (Nat.lt_succ_self n)

theorem foldl_natDigitsAux :
    ∀ fuel n, n < fuel → ∀ acc,
      (natDigitsAux fuel n).foldl digitsStep acc =
        acc * 10 ^ (natDigitsAux fuel n).length + n := by
  intro fuel
  induction fuel with
  | zero => intro n hn; omega
  | succ fuel ih =>
    intro n hn acc
    by_cases h10 : n < 10
    · simp only [natDigitsAux, if_pos h10, List.foldl_cons, List.foldl_nil,
        List.length_singleton, pow_one, digitsStep]
      rw [digitVal_digitChar n h10]
    · have hdiv : n / 10 < fuel := by
        have := Nat.div_lt_self (by omega : 0 < n) (by omega : 1 < 10); omega
      simp only [natDigitsAux, if_neg h10, List.foldl_append, List.foldl_cons,
        List.foldl_nil, List.length_append, List.length_singleton]
      rw [ih (n / 10) hdiv acc]
      simp only [digitsStep]
      rw [digitVal_digitChar _ (Nat.mod_lt n (by omega))]
      have hdm := Nat.div_add_mod n 10
      have hp : 10 ^ ((natDigitsAux fuel (n / 10)).length + 1) =
          10 ^ (natDigitsAux fuel (n / 10)).length * 10 := pow_succ 10 _
      rw [hp, ← mul_assoc]
      generalize acc * 10 ^ (natDigitsAux fuel (n / 10)).length = Q
      omega

theorem digitsVal2_cons_digit {c : Char} (acc : Nat) (cs : List Char)
    (hu : ¬(c = '_')) (hc : c.isDigit = true) :
    digitsVal2 acc (c :: cs) = digitsVal2 (digitsStep acc c) cs := by
  rw [digitsVal2.eq_def]; simp [hu, hc]

theorem digitsVal2_cons_nondigit {c : Char} (acc : Nat) (cs : List Char)
    (hu : ¬(c = '_')) (hc : ¬(c.isDigit = true)) :
    digitsVal2 acc (c :: cs) = none := by
  rw [digitsVal2.eq_def]; simp [hu, hc]

theorem digitsVal2_underscore_cons {d : Char} (acc : Nat) (cs2 : List Char)
    (hd : d.isDigit = true) :
    digitsVal2 acc ('_' :: d :: cs2) = digitsVal2 (digitsStep acc d) cs2 := by
  rw [digitsVal2.eq_def]; simp [hd]

theorem digitsVal2_underscore_cons_bad {d : Char} (acc : Nat) (cs2 : List Char)
    (hd : ¬(d.isDigit = true)) :
    digitsVal2 acc ('_' :: d :: cs2) = none := by
  rw [digitsVal2.eq_def]; simp [hd]

theorem groupOK_cons {c : Char} (cs : List Char) (hu : ¬(c = '_')) :
    groupOK (c :: cs) = (c.isDigit && groupOK cs) := by
  rw [groupOK.eq_def]; simp [hu]

theorem groupOK_underscore_cons (d : Char) (cs2 : List Char) :
    groupOK ('_' :: d :: cs2) = (d.isDigit && groupOK cs2) := by
  rw [groupOK.eq_def]; simp

theorem digitsVal2_digits :
    ∀ (cs : List Char) (acc : Nat), (∀ c ∈ cs, c.isDigit = true) →
      digitsVal2 acc cs = some (cs.foldl digitsStep acc) := by
  intro cs
  induction cs with
  | nil => intro acc _; rfl
  | cons c cs ih =>
    intro acc h
    have hc : c.isDigit = true := h c (List.mem_cons_self _ _)
    obtain ⟨hu, _, _⟩ := ne_special_of_isDigit c hc
    rw [digitsVal2_cons_digit acc cs hu hc, List.foldl_cons]
    exact ih _ (fun x hx => h x (List.mem_cons_of_mem _ hx))

theorem parseDigitGroup_natDigits (n : Nat) : parseDigitGroup (natDigits n) = some n := by
  rcases hne : natDigits n with _ | ⟨c, rest⟩
  · exact absurd hne (natDigits_ne_nil n)
  · have hd := natDigits_digits n
    have hc : c.isDigit = true := hd c (by rw [hne]; exact List.mem_cons_self _ _)
    have hrest : ∀ x ∈ rest, x.isDigit = true :=
      fun x hx => hd x (by rw [hne]; exact List.mem_cons_of_mem _ hx)
    simp only [parseDigitGroup, hc, if_pos]
    rw [digitsVal2_digits rest (digitVal c) hrest]
    have hfold := foldl_natDigitsAux (n + 1) n (Nat.lt_succ_self n) 0
    rw [show natDigitsAux (n + 1) n = natDigits n from rfl, hne, List.foldl_cons] at hfold
    have hz : digitsStep 0 c = digitVal c := by simp [digitsStep]
    rw [hz] at hfold
    rw [hfold]
    simp

theorem pyInt_encodeInt (n : Int) : pyInt (encodeInt n) = some n := by
  cases n with
  | ofNat m =>
    show pyIntOfChars (stripChars (String.mk (natDigits m)).data) = some (Int.ofNat m)
    have hdig := natDigits_digits m
    have hstrip : stripChars (natDigits m) = natDigits m :=
      stripChars_of_no_ws (fun c hc => not_ws_of_isDigit c (hdig c hc))
    rw [show (String.mk (natDigits m)).data = natDigits m from rfl, hstrip]
    rcases hne : natDigits m with _ | ⟨c, rest⟩
    · exact absurd hne (natDigits_ne_nil m)
    · have hc : c.isDigit = true := hdig c (by rw [hne]; exact List.mem_cons_self _ _)
      obtain ⟨_, h2, h3⟩ := ne_special_of_isDigit c hc
      simp only [pyIntOfChars, if_neg h2, if_neg h3]
      rw [← hne, parseDigitGroup_natDigits]
      rfl
  | negSucc m =>
    show pyIntOfChars (stripChars (String.mk ('-' :: natDigits (m + 1))).data) =
      some (Int.negSucc m)
    have hdig := natDigits_digits (m + 1)
    have hstrip : stripChars ('-' :: natDigits (m + 1)) = '-' :: natDigits (m + 1) := by
      refine stripChars_of_no_ws ?_
      intro c hc
      rcases List.mem_cons.mp hc with hc | hc
      · subst hc; decide
      · exact not_ws_of_isDigit c (hdig c hc)
    rw [show (String.mk ('-' :: natDigits (m + 1))).data = '-' :: natDigits (m + 1) from rfl,
      hstrip]
    simp only [pyIntOfChars, if_neg (by decide : ¬('-' = '+')), if_pos rfl]
    rw [parseDigitGroup_natDigits]
    rfl

theorem digitsVal2_isSome :
    ∀ (k : Nat) (cs : List Char), cs.length ≤ k → ∀ acc,
      (digitsVal2 acc cs).isSome = groupOK cs := by
  intro k
  induction k with
  | zero =>
    intro cs h acc
    have : cs = [] := List.eq_nil_of_length_eq_zero (Nat.le_zero.mp h)
    subst this; rfl
  | succ k ih =>
    intro cs h acc
    cases cs with
    | nil => rfl
    | cons c cs' =>
      by_cases hc : c = '_'
      · subst hc
        cases cs' with
        | nil => rfl
        | cons d cs2 =>
          rw [groupOK_underscore_cons]
          by_cases hd : d.isDigit = true
          · rw [digitsVal2_underscore_cons acc cs2 hd, hd, Bool.true_and]
            exact ih cs2 (by simp at h ⊢; omega) _
          · rw [digitsVal2_underscore_cons_bad acc cs2 hd]
            simp [Bool.eq_false_iff.mpr hd]
      · rw [groupOK_cons cs' hc]
        by_cases hcd : c.isDigit = true
        · rw [digitsVal2_cons_digit acc cs' hc hcd, hcd, Bool.true_and]
          exact ih cs' (by simp at h ⊢; omega) _
        · rw [digitsVal2_cons_nondigit acc cs' hc hcd]
          simp [Bool.eq_false_iff.mpr hcd]

theorem parseDigitGroup_isSome (cs : List Char) :
    (parseDigitGroup cs).isSome = digitGroupOK cs := by
  cases cs with
  | nil => rfl
  | cons c cs' =>
    by_cases hc : c.isDigit = true
    · simp only [parseDigitGroup, digitGroupOK, hc, if_pos, Bool.true_and]
      exact digitsVal2_isSome cs'.length cs' le_rfl _
    · simp [parseDigitGroup, digitGroupOK, hc]

theorem pyIntOfChars_isSome (cs : List Char) :
    (pyIntOfChars cs).isSome = pyIntTextOK cs := by
  cases cs with
  | nil => rfl
  | cons c rest =>
    by_cases h1 : c = '+'
    · simp [pyIntOfChars, pyIntTextOK, h1, Option.isSome_map, parseDigitGroup_isSome]
    · by_cases h2 : c = '-'
      · simp [pyIntOfChars, pyIntTextOK, h1, h2, Option.isSome_map, parseDigitGroup_isSome]
      · simp [pyIntOfChars, pyIntTextOK, h1, h2, Option.isSome_map, parseDigitGroup_isSome]

/-- C9 counterexample: the decoder is not "exactly base-10 signed text":
CPython `int` also accepts underscore digit separators, so `"1_0"`
decodes successfully although it is not a signed decimal numeral. -/
theorem int_decode_not_exactly_decimal_cex :
    ¬(∀ s : String, (pyInt s).isSome = isSignedDecimal s) :=
  fun h => absurd (h "1_0") (by decide)

theorem groupOK_of_digits (cs : List Char) (h : ∀ c ∈ cs, c.isDigit = true) :
    groupOK cs = true := by
  have h1 := digitsVal2_digits cs 0 h
  have h2 := digitsVal2_isSome cs.length cs le_rfl 0
  rw [h1] at h2
  exact h2.symm

theorem digitGroupOK_of_digits (cs : List Char) (hne : cs ≠ [])
    (h : ∀ c ∈ cs, c.isDigit = true) : digitGroupOK cs = true := by
  cases cs with
  | nil => exact absurd rfl hne
  | cons c cs' =>
    show (c.isDigit && groupOK cs') = true
    rw [h c (List.mem_cons_self _ _),
      groupOK_of_digits cs' (fun x hx => h x (List.mem_cons_of_mem _ hx))]
    rfl

theorem band_true_split {a b : Bool} (h : (a && b) = true) : a = true ∧ b = true := by
  simp only [Bool.and_eq_true] at h
  exact h

theorem isSignedDecimal_cons (c : Char) (rest : List Char) (s : String)
    (hcs : stripChars s.data = c :: rest) :
    isSignedDecimal s =
      (if c = '+' then !rest.isEmpty && rest.all Char.isDigit
       else if c = '-' then !rest.isEmpty && rest.all Char.isDigit
       else (c :: rest).all Char.isDigit) := by
  unfold isSignedDecimal
  rw [hcs]

theorem pyIntTextOK_cons (a : Char) (rest : List Char) :
    pyIntTextOK (a :: rest) =
      (if a = '+' then digitGroupOK rest
       else if a = '-' then digitGroupOK rest
       else digitGroupOK (a :: rest)) := rfl

theorem pyInt_accepts_signedDecimal (s : String) (h : isSignedDecimal s = true) :
    (pyInt s).isSome = true := by
  rw [pyInt, pyIntOfChars_isSome]
  cases hcs : stripChars s.data with
  | nil =>
    rw [show isSignedDecimal s = false by unfold isSignedDecimal; rw [hcs]] at h
    exact absurd h (by decide)
  | cons c rest =>
    rw [isSignedDecimal_cons c rest s hcs] at h
    rw [pyIntTextOK_cons]
    by_cases h1 : c = '+'
    · rw [if_pos h1] at h ⊢
      rcases band_true_split h with ⟨hne, hall⟩
      exact digitGroupOK_of_digits rest
        (by cases rest <;> simp_all) (fun x hx => List.all_eq_true.mp hall x hx)
    · rw [if_neg h1] at h ⊢
      by_cases h2 : c = '-'
      · rw [if_pos h2] at h ⊢
        rcases band_true_split h with ⟨hne, hall⟩
        exact digitGroupOK_of_digits rest
          (by cases rest <;> simp_all) (fun x hx => List.all_eq_true.mp hall x hx)
      · rw [if_neg h2] at h ⊢
        exact digitGroupOK_of_digits (c :: rest) (by simp)
          (fun x hx => List.all_eq_true.mp h x hx)

theorem groupOK_chars :
    ∀ (k : Nat) (cs : List Char), cs.length ≤ k → groupOK cs = true →
      ∀ c ∈ cs, c.isDigit = true ∨ c = '_' := by
  intro k
  induction k with
  | zero =>
    intro cs hl _ c hc
    have : cs = [] := List.eq_nil_of_length_eq_zero (Nat.le_zero.mp hl)
    subst this; simp at hc
  | succ k ih =>
    intro cs hl hg c hc
    cases cs with
    | nil => simp at hc
    | cons a cs' =>
      by_cases ha : a = '_'
      · subst ha
        cases cs' with
        | nil => exact absurd hg (by decide)
        | cons d cs2 =>
          rw [groupOK_underscore_cons] at hg
          rcases band_true_split hg with ⟨hd, hg2⟩
          rcases List.mem_cons.mp hc with rfl | hc2
          · exact Or.inr rfl
          · rcases List.mem_cons.mp hc2 with rfl | hc3
            · exact Or.inl hd
            · exact ih cs2 (by simp at hl ⊢; omega) hg2 c hc3
      · rw [groupOK_cons cs' ha] at hg
        rcases band_true_split hg with ⟨h1, h2⟩
        rcases List.mem_cons.mp hc with rfl | hc2
        · exact Or.inl h1
        · exact ih cs' (by simp at hl ⊢; omega) h2 c hc2

theorem digitGroupOK_chars (cs : List Char) (h : digitGroupOK cs = true) :
    ∀ c ∈ cs, c.isDigit = true ∨ c = '_' := by
  cases cs with
  | nil => intro c hc; simp at hc
  | cons d cs2 =>
    intro c hc
    rw [show digitGroupOK (d :: cs2) = (d.isDigit && groupOK cs2) from rfl] at h
    rcases band_true_split h with ⟨hd, hg⟩
    rcases List.mem_cons.mp hc with rfl | hc2
    · exact Or.inl hd
    · exact groupOK_chars cs2.length cs2 le_rfl hg c hc2

theorem pyIntTextOK_chars (cs : List Char) (h : pyIntTextOK cs = true) :
    ∀ c ∈ cs, c.isDigit = true ∨ c = '_' ∨ c = '+' ∨ c = '-' := by
  cases cs with
  | nil => intro c hc; simp at hc
  | cons a rest =>
    intro c hc
    rw [pyIntTextOK_cons] at h
    by_cases h1 : a = '+'
    · rw [if_pos h1] at h
      rcases List.mem_cons.mp hc with rfl | hc2
      · exact Or.inr (Or.inr (Or.inl h1))
      · rcases digitGroupOK_chars rest h c hc2 with hd | hu
        · exact Or.inl hd
        · exact Or.inr (Or.inl hu)
    · rw [if_neg h1] at h
      by_cases h2 : a = '-'
      · rw [if_pos h2] at h
        rcases List.mem_cons.mp hc with rfl | hc2
        · exact Or.inr (Or.inr (Or.inr h2))
        · rcases digitGroupOK_chars rest h c hc2 with hd | hu
          · exact Or.inl hd
          · exact Or.inr (Or.inl hu)
      · rw [if_neg h2] at h
        rcases digitGroupOK_chars (a :: rest) h c hc with hd | hu
        · exact Or.inl hd
        · exact Or.inr (Or.inl hu)

theorem token_char_not_alpha (c : Char)
    (h : c.isDigit = true ∨ c = '_' ∨ c = '+' ∨ c = '-')
    (ha : c.isAlpha = true) : False := by
  rcases h with h | h | h | h
  · simp [Char.isDigit, Char.isAlpha, Char.isUpper, Char.isLower, UInt32.le_def,
      BitVec.le_def] at h ha
    omega
  · subst h; exact absurd ha (by decide)
  · subst h; exact absurd ha (by decide)
  · subst h; exact absurd ha (by decide)

/-- C9 (amended): integer decoding accepts every base-10 signed
textual token, but not only those — CPython `int` also accepts further
numeric forms such as underscore-separated digit groups, so `"1_0"`
decodes successfully — while any token containing an ASCII letter is
rejected; and for every integer representable in the declared 32-bit
width, encoding the decoded value back to text yields the same textual
value. -/
theorem int_decode_accepts_decimal_roundtrip :
    (∀ s : String, isSignedDecimal s = true → (pyInt s).isSome = true) ∧
    ((pyInt "1_0").isSome = true ∧ isSignedDecimal "1_0" = false) ∧
    (∀ (s : String) (c : Char), c ∈ stripChars s.data → c.isAlpha = true →
      pyInt s = none) ∧
    (∀ n : Int, -(2 ^ 31) ≤ n → n < 2 ^ 31 →
      pyInt (encodeInt n) = some n ∧
      (pyInt (encodeInt n)).map encodeInt = some (encodeInt n)) := by
  refine ⟨pyInt_accepts_signedDecimal, ⟨by decide, by decide⟩, ?_, ?_⟩
  · intro s c hmem ha
    by_contra hne
    have hsome : (pyInt s).isSome = true := Option.isSome_iff_ne_none.mpr hne
    rw [pyInt, pyIntOfChars_isSome] at hsome
    exact token_char_not_alpha c (pyIntTextOK_chars _ hsome c hmem) ha
  · intro n _ _
    refine ⟨pyInt_encodeInt n, ?_⟩
    rw [pyInt_encodeInt n]; rfl

theorem int_decode_accepts_decimal_roundtrip_witness :
    (isSignedDecimal "-42" = true ∧ (pyInt "-42").isSome = true) ∧
    (('a' ∈ stripChars "12a".data ∧ ('a' : Char).isAlpha = true) ∧ pyInt "12a" = none) ∧
    ((-(2 ^ 31) ≤ (-2147483648 : Int) ∧ (-2147483648 : Int) < 2 ^ 31) ∧
      pyInt (encodeInt (-2147483648)) = some (-2147483648) ∧
      (pyInt (encodeInt (-2147483648))).map encodeInt = some (encodeInt (-2147483648))) :=
  ⟨⟨by decide, int_decode_accepts_decimal_roundtrip.1 "-42" (by decide)⟩,
   ⟨⟨by decide, by decide⟩,
    int_decode_accepts_decimal_roundtrip.2.2.1 "12a" 'a' (by decide) (by decide)⟩,
   ⟨⟨by decide, by decide⟩,
    (int_decode_accepts_decimal_roundtrip.2.2.2 (-2147483648) (by decide) (by decide)).1,
    (int_decode_accepts_decimal_roundtrip.2.2.2 (-2147483648) (by decide) (by decide)).2⟩⟩

/-! ### Topic binding algebra -/

theorem string_data_append (s t : String) : (s ++ t).data = s.data ++ t.data := by
  cases s; cases t; rfl

theorem string_ext {s t : String} (h : s.data = t.data) : s = t := by
  cases s; cases t; exact congrArg String.mk h

theorem teleTopic_inj (root a b : String) (h : teleTopic root a = teleTopic root b) :
    a = b := by
  unfold teleTopic at h
  have hd := congrArg String.data h
  rw [string_data_append, string_data_append] at hd
  exact string_ext (List.append_cancel_left hd)

theorem cmdTopic_inj (root a b : String) (h : cmdTopic root a = cmdTopic root b) :
    a = b := by
  unfold cmdTopic at h
  have hd := congrArg String.data h
  rw [string_data_append, string_data_append] at hd
  exact string_ext (List.append_cancel_left hd)

theorem cmdTopic_ne_teleTopic (root a b : String) : cmdTopic root a ≠ teleTopic root b := by
  intro h
  have hd := congrArg String.data h
  unfold cmdTopic teleTopic at hd
  rw [string_data_append, string_data_append, string_data_append, string_data_append,
    List.append_assoc, List.append_assoc] at hd
  have h2 := List.append_cancel_left hd
  have e1 : "/opc/cmd/".data = ['/', 'o', 'p', 'c', '/', 'c', 'm', 'd', '/'] := rfl
  have e2 : "/opc/tele/".data = ['/', 'o', 'p', 'c', '/', 't', 'e', 'l', 'e', '/'] := rfl
  rw [e1, e2] at h2
  simp at h2

theorem binding_count_one (f : String → String) (names : List String) (name : String)
    (hnd : names.Nodup) (hm : name ∈ names) :
    (names.map (fun n => (n, f n))).countP (fun p => p.1 == name) = 1 := by
  rw [List.countP_map]
  have : ((fun p : String × String => p.1 == name) ∘ fun n => (n, f n)) =
      fun n => n == name := rfl
  rw [this]
  exact List.count_eq_one_of_mem hnd hm

/-- C7: for every root and name set, the derived bindings are injective
(no two names share a telemetry topic or a control topic), no control
topic literal ever equals a telemetry topic literal, and — when the
names are distinct, as in `NODES_SPEC` — every name is bound to exactly
one telemetry topic and exactly one control topic. -/
theorem topic_bindings_injective :
    (∀ root a b, teleTopic root a = teleTopic root b → a = b) ∧
    (∀ root a b, cmdTopic root a = cmdTopic root b → a = b) ∧
    (∀ root a b, cmdTopic root a ≠ teleTopic root b) ∧
    (∀ (root : String) (names : List String) (name : String),
      names.Nodup → name ∈ names →
      (teleBindings root names).countP (fun p => p.1 == name) = 1 ∧
      (cmdBindings root names).countP (fun p => p.1 == name) = 1) :=
  ⟨teleTopic_inj, cmdTopic_inj, cmdTopic_ne_teleTopic,
   fun root names name hnd hm =>
     ⟨binding_count_one (teleTopic root) names name hnd hm,
      binding_count_one (cmdTopic root) names name hnd hm⟩⟩

theorem topic_bindings_injective_witness :
    (teleTopic "imhotep" "S1" = teleTopic "imhotep" "S1" ∧
      nodeNames.Nodup ∧ "S1" ∈ nodeNames) ∧
    ("S1" = "S1" ∧
      (teleBindings "imhotep" nodeNames).countP (fun p => p.1 == "S1") = 1 ∧
      (cmdBindings "imhotep" nodeNames).countP (fun p => p.1 == "S1") = 1) :=
  ⟨⟨rfl, by decide, by decide⟩,
   topic_bindings_injective.1 "imhotep" "S1" "S1" rfl,
   (topic_bindings_injective.2.2.2 "imhotep" nodeNames "S1" (by decide) (by decide)).1,
   (topic_bindings_injective.2.2.2 "imhotep" nodeNames "S1" (by decide) (by decide)).2⟩

/-! ### Inbound payload decoding (`parse_incoming_payload`) -/

mutual

/-- Python `repr` of a loaded JSON value (`repr(True) = "True"`,
`repr('x') = "'x'"`, `repr([1]) = "[1]"`, …). -/
def pyRepr : JsonV → String
  | JsonV.str s => "\x27" ++ s ++ "\x27"
  | JsonV.bool b => if b then "True" else "False"
  | JsonV.num n => encodeInt n
  | JsonV.null => "None"
  | JsonV.arr xs => "[" ++ pyReprArr xs ++ "]"
  | JsonV.obj fs => "\x7b" ++ pyReprObj fs ++ "\x7d"

/-- Comma-separated reprs of the elements of a Python list. -/
def pyReprArr : List JsonV → String
  | [] => ""
  | [x] => pyRepr x
  | x :: xs => pyRepr x ++ ", " ++ pyReprArr xs

/-- Comma-separated `'key': repr` entries of a Python dict. -/
def pyReprObj : List (String × JsonV) → String
  | [] => ""
  | [f] => "\x27" ++ f.1 ++ "\x27: " ++ pyRepr f.2
  | f :: fs => "\x27" ++ f.1 ++ "\x27: " ++ pyRepr f.2 ++ ", " ++ pyReprObj fs

end

/-- Python `str()` of a loaded JSON value: a string is itself, anything
else falls back to its repr (`str(True) = "True"`, `str(5) = "5"`,
`str(None) = "None"`). -/
def pyStr (v : JsonV) : String :=
  match v with
  | JsonV.str s => s
  | _ => pyRepr v

/-- A decoded inbound value: the possible results of
`parse_incoming_payload`. -/
inductive DecodedV where
  | bool (b : Bool)
  | int (n : Int)
  | raw (v : JsonV)

/-- The type-directed tail of `parse_incoming_payload` (source lines
113–117): `to_bool(raw)` for bool, `int(str(raw).strip())` for int,
`raw` itself otherwise.  `none` models the raised exception. -/
def decode_value (v : JsonV) : PyKind → Option DecodedV
  | PyKind.bool => (to_bool (pyStr v)).map DecodedV.bool
  | PyKind.int => (pyInt (pyStr v)).map DecodedV.int
  | PyKind.other => some (DecodedV.raw v)

/-- Embeds `parse_incoming_payload` (source lines 99–117).  `payload` is the
UTF-8 decoded MQTT payload; `loads` is the result of `json.loads` on
the stripped payload (`none` models a parse exception, which the
source swallows). -/
def parse_incoming_payload (payload : String) (loads : Option JsonV) (k : PyKind) :
    Option DecodedV :=
  match loads with
  | some (JsonV.obj fs) =>
    match fs.lookup "value" with
    | some v => decode_value v k
    | none => decode_value (JsonV.str (String.mk (stripChars payload.data))) k
  | _ => decode_value (JsonV.str (String.mk (stripChars payload.data))) k

/-- The spec's criterion for "recognized as JSON": the payload parses
as a JSON object containing a `value` member; yields that member. -/
def jsonValueMember : Option JsonV → Option JsonV
  | some (JsonV.obj fs) => fs.lookup "value"
  | _ => none

/-- C2: the payload is treated as JSON exactly when `json.loads`
returns an object with a `value` member — that member is then decoded
against the expected kind — and in every other case (parse failure,
arrays, scalars, objects without `value`) the whole stripped payload is
decoded as plain text. -/
theorem parse_incoming_payload_json_selection
    (payload : String) (loads : Option JsonV) (k : PyKind) :
    parse_incoming_payload payload loads k =
      decode_value
        ((jsonValueMember loads).getD (JsonV.str (String.mk (stripChars payload.data)))) k := by
  cases loads with
  | none => rfl
  | some v =>
    cases v with
    | obj fs =>
      cases h : fs.lookup "value" with
      | none => simp [parse_incoming_payload, jsonValueMember, h]
      | some w => simp [parse_incoming_payload, jsonValueMember, h]
    | str s => rfl
    | num n => rfl
    | bool b => rfl
    | null => rfl
    | arr xs => rfl

/-! ### Inbound message dispatch (`on_message`) -/

/-- The bridge state read by `on_message`: the inverse control-topic
map, the static `NODES_SPEC`, and the set of friendly names whose node
handle exists in `self.nodes`. -/
structure BridgeState where
  topicToName : List (String × String)
  nodesSpec : List (String × String × PyKind)
  nodesReady : List String

/-- Externally visible actions of one `on_message` call. -/
inductive MsgAction where
  | diagNotReady (name : String)
  | writeValue (name : String) (v : DecodedV)
  | diagWriteError (name : String)

/-- Embeds `on_message` (source lines 165–187), as a function from the bridge
state and the inbound message to (state after, actions, exception
escaped).  `writeFails` models `node.set_value` raising.  The
`nodesSpec` lookup mirrors `NODES_SPEC[name]` (a `KeyError` there would
escape, being outside the `try`, but is unreachable for the derived
maps). -/
def on_message (st : BridgeState) (topic payload : String) (loads : Option JsonV)
    (writeFails : Bool) : BridgeState × List MsgAction × Bool :=
  match st.topicToName.lookup topic with
  | none => (st, [], false)
  | some name =>
    match st.nodesSpec.lookup name with
    | none => (st, [], true)
    | some sk =>
      if name ∈ st.nodesReady then
        match parse_incoming_payload payload loads sk.2 with
        | none => (st, [MsgAction.diagWriteError name], false)
        | some v =>
          if writeFails then (st, [MsgAction.diagWriteError name], false)
          else (st, [MsgAction.writeValue name v], false)
      else (st, [MsgAction.diagNotReady name], false)

/-- The bridge state right after `__init__`: topic maps built, no node
handles yet. -/
def bridgeInit : BridgeState := ⟨topic_to_name, NODES_SPEC, []⟩

/-- The bridge state after `start` resolved every node. -/
def bridgeReady : BridgeState := ⟨topic_to_name, NODES_SPEC, nodeNames⟩

/-- C5: a message on a topic that is not a configured control topic is
silently ignored: no write, no diagnostic, no exception, state
unchanged. -/
theorem on_message_unknown_topic_silent (st : BridgeState) (topic payload : String)
    (loads : Option JsonV) (wf : Bool)
    (h : st.topicToName.lookup topic = none) :
    on_message st topic payload loads wf = (st, [], false) := by
  unfold on_message
  rw [h]

theorem on_message_unknown_topic_silent_witness :
    (bridgeReady.topicToName.lookup "some/other/topic" = none) ∧
    on_message bridgeReady "some/other/topic" "5" none false = (bridgeReady, [], false) :=
  ⟨by decide,
   on_message_unknown_topic_silent bridgeReady "some/other/topic" "5" none false (by decide)⟩

/-- C10: a message on a recognized control topic whose friendly name
has no live node handle yet is dropped after a diagnostic: no write, no
exception, state unchanged. -/
theorem on_message_node_not_ready (st : BridgeState) (topic payload : String)
    (loads : Option JsonV) (wf : Bool) (name : String) (sk : String × PyKind)
    (h1 : st.topicToName.lookup topic = some name)
    (h2 : st.nodesSpec.lookup name = some sk)
    (h3 : name ∉ st.nodesReady) :
    on_message st topic payload loads wf = (st, [MsgAction.diagNotReady name], false) := by
  unfold on_message
  rw [h1]
  simp [h2, h3]

theorem on_message_node_not_ready_witness :
    (bridgeInit.topicToName.lookup "imhotep/opc/cmd/S1" = some "S1" ∧
      bridgeInit.nodesSpec.lookup "S1" = some ("ns=3;s=\"B_Bay1\"", PyKind.bool) ∧
      "S1" ∉ bridgeInit.nodesReady) ∧
    on_message bridgeInit "imhotep/opc/cmd/S1" "true" none false =
      (bridgeInit, [MsgAction.diagNotReady "S1"], false) :=
  ⟨⟨by decide, by decide, by decide⟩,
   on_message_node_not_ready bridgeInit "imhotep/opc/cmd/S1" "true" none false
     "S1" ("ns=3;s=\"B_Bay1\"", PyKind.bool) (by decide) (by decide) (by decide)⟩

/-- C6: on a recognized control topic with a live node, a decode
failure or a rejected write is caught inside the handler — a diagnostic
is emitted, the message dropped, and no exception escapes. -/
theorem on_message_error_contained (st : BridgeState) (topic payload : String)
    (loads : Option JsonV) (wf : Bool) (name : String) (sk : String × PyKind)
    (h1 : st.topicToName.lookup topic = some name)
    (h2 : st.nodesSpec.lookup name = some sk)
    (h3 : name ∈ st.nodesReady)
    (h4 : parse_incoming_payload payload loads sk.2 = none ∨ wf = true) :
    on_message st topic payload loads wf = (st, [MsgAction.diagWriteError name], false) := by
  unfold on_message
  rw [h1]
  rcases h4 with h4 | h4
  · simp [h2, h3, h4]
  · cases hp : parse_incoming_payload payload loads sk.2 with
    | none => simp [h2, h3, hp]
    | some v => simp [h2, h3, hp, h4]

theorem on_message_error_contained_witness :
    (bridgeReady.topicToName.lookup "imhotep/opc/cmd/JogLeft" = some "JogLeft" ∧
      bridgeReady.nodesSpec.lookup "JogLeft" = some ("ns=3;s=\"DB_OP\".\"JogLeft\"", PyKind.bool) ∧
      "JogLeft" ∈ bridgeReady.nodesReady ∧
      parse_incoming_payload "banana" none (("ns=3;s=\"DB_OP\".\"JogLeft\"", PyKind.bool)).2 = none) ∧
    on_message bridgeReady "imhotep/opc/cmd/JogLeft" "banana" none false =
      (bridgeReady, [MsgAction.diagWriteError "JogLeft"], false) :=
  ⟨⟨by decide, by decide, by decide, by rfl⟩,
   on_message_error_contained bridgeReady "imhotep/opc/cmd/JogLeft" "banana" none false
     "JogLeft" ("ns=3;s=\"DB_OP\".\"JogLeft\"", PyKind.bool)
     (by decide) (by decide) (by decide) (Or.inl (by rfl))⟩

/-! ### Telemetry publishes -/

/-- The `ts` member: ISO string from `isoformat()` when a timestamp is
present, else JSON null (source line 198). -/
def tsField : Option String → JsonV
  | some s => JsonV.str s
  | none => JsonV.null

/-- The change-notification payload object (source line 203). -/
def mkTelePayload (name : String) (val : JsonV) (ts : Option String) :
    List (String × JsonV) :=
  [("name", JsonV.str name), ("value", val), ("ts", tsField ts)]

/-- Embeds `_SubHandler.datachange_notification` (source lines 194–205): the
list of (topic, payload) publishes one notification produces.
`nodeKey` is `node.nodeid.to_string()`, `fallbackName` is `str(node)`
(the `.get` default), `ts` the freshest server/source timestamp in ISO
form. -/
def datachange_notification (nidToName teleTopics : List (String × String))
    (nodeKey fallbackName : String) (val : JsonV) (ts : Option String) :
    List (String × List (String × JsonV)) :=
  let name := (nidToName.lookup nodeKey).getD fallbackName
  match teleTopics.lookup name with
  | some topic => [(topic, mkTelePayload name val ts)]
  | none => []

/-- Embeds `publish_initial_snapshot` (source lines 239–249): one publish per
resolved node that has a telemetry topic; `resolved` carries each
node's read value (or the read-error placeholder string). -/
def publish_initial_snapshot (resolved : List (String × JsonV))
    (teleTopics : List (String × String)) : List (String × List (String × JsonV)) :=
  resolved.filterMap (fun nv =>
    (teleTopics.lookup nv.1).map
      (fun topic => (topic, mkTelePayload nv.1 nv.2 none ++ [("initial", JsonV.bool true)])))

/-- C8: every telemetry publish carries members `name`, `value` and
`ts` (an ISO string or null); `initial` is present — set `true` — only
in snapshot publishes and never in change notifications; and a change
notification for `S1` with value `true` is exactly one publish to
`imhotep/opc/tele/S1` whose payload maps `name` to `"S1"` and `value`
to `true`. -/
theorem telemetry_payload_shape :
    (∀ (nidToName teleTopics : List (String × String)) (nodeKey fallbackName : String)
      (val : JsonV) (ts : Option String) (pub : String × List (String × JsonV)),
      pub ∈ datachange_notification nidToName teleTopics nodeKey fallbackName val ts →
      (∃ nm, pub.2.lookup "name" = some (JsonV.str nm)) ∧
      pub.2.lookup "value" = some val ∧
      (pub.2.lookup "ts" = some JsonV.null ∨ ∃ s, pub.2.lookup "ts" = some (JsonV.str s)) ∧
      pub.2.lookup "initial" = none) ∧
    (∀ (resolved : List (String × JsonV)) (teleTopics : List (String × String))
      (pub : String × List (String × JsonV)),
      pub ∈ publish_initial_snapshot resolved teleTopics →
      (∃ nm, pub.2.lookup "name" = some (JsonV.str nm)) ∧
      (∃ v, pub.2.lookup "value" = some v) ∧
      pub.2.lookup "ts" = some JsonV.null ∧
      pub.2.lookup "initial" = some (JsonV.bool true)) ∧
    datachange_notification nodeid_to_name telemetry_topics "ns=3;s=\"B_Bay1\"" "node"
        (JsonV.bool true) none =
      [("imhotep/opc/tele/S1",
        [("name", JsonV.str "S1"), ("value", JsonV.bool true), ("ts", JsonV.null)])] := by
  refine ⟨?_, ?_, ?_⟩
  · intro nidToName teleTopics nodeKey fallbackName val ts pub hmem
    unfold datachange_notification at hmem
    simp only [] at hmem
    cases hl : teleTopics.lookup ((nidToName.lookup nodeKey).getD fallbackName) with
    | none => rw [hl] at hmem; exact absurd hmem (List.not_mem_nil pub)
    | some topic =>
      rw [hl] at hmem
      rcases List.mem_singleton.mp hmem with rfl
      refine ⟨⟨_, rfl⟩, rfl, ?_, rfl⟩
      cases ts with
      | none => exact Or.inl rfl
      | some s => exact Or.inr ⟨s, rfl⟩
  · intro resolved teleTopics pub hmem
    unfold publish_initial_snapshot at hmem
    rcases List.mem_filterMap.mp hmem with ⟨nv, _, hf⟩
    rcases Option.map_eq_some'.mp hf with ⟨topic, _, rfl⟩
    exact ⟨⟨_, rfl⟩, ⟨_, rfl⟩, rfl, rfl⟩
  · rfl

theorem telemetry_payload_shape_witness :
    (("imhotep/opc/tele/S1",
        [("name", JsonV.str "S1"), ("value", JsonV.bool true), ("ts", JsonV.null)]) ∈
      datachange_notification nodeid_to_name telemetry_topics "ns=3;s=\"B_Bay1\"" "node"
        (JsonV.bool true) none) ∧
    ((∃ nm,
        ([("name", JsonV.str "S1"), ("value", JsonV.bool true),
          ("ts", JsonV.null)] : List (String × JsonV)).lookup "name" =
          some (JsonV.str nm)) ∧
      ([("name", JsonV.str "S1"), ("value", JsonV.bool true),
          ("ts", JsonV.null)] : List (String × JsonV)).lookup "value" =
        some (JsonV.bool true) ∧
      (([("name", JsonV.str "S1"), ("value", JsonV.bool true),
          ("ts", JsonV.null)] : List (String × JsonV)).lookup "ts" = some JsonV.null ∨
        ∃ s,
          ([("name", JsonV.str "S1"), ("value", JsonV.bool true),
            ("ts", JsonV.null)] : List (String × JsonV)).lookup "ts" = some (JsonV.str s)) ∧
      ([("name", JsonV.str "S1"), ("value", JsonV.bool true),
          ("ts", JsonV.null)] : List (String × JsonV)).lookup "initial" = none) :=
  ⟨List.Mem.head _,
   telemetry_payload_shape.1 nodeid_to_name telemetry_topics "ns=3;s=\"B_Bay1\"" "node"
     (JsonV.bool true) none
     ("imhotep/opc/tele/S1",
       [("name", JsonV.str "S1"), ("value", JsonV.bool true), ("ts", JsonV.null)])
     (List.Mem.head _)⟩

/-! ### Shutdown sequence (`stop`) -/

/-- The externally visible steps `stop` can attempt (source lines
251–268). -/
inductive StopStep where
  | unsub (h : Nat)
  | subDelete
  | opcDisconnect
  | statusPublish
  | mqttDisconnect
deriving DecidableEq

/-- Which external calls raise during shutdown. -/
structure StopFaults where
  unsubFails : Nat → Bool
  deleteFails : Bool
  opcDisconnectFails : Bool
  publishFails : Bool
  mqttDisconnectFails : Bool

/-- One external call: it is attempted, and raises iff `fails`. -/
def act (s : StopStep) (fails : Bool) : List StopStep × Bool := ([s], fails)

/-- Python `;`-sequencing: run `b` only when `a` did not raise. -/
def seqA (a b : List StopStep × Bool) : List StopStep × Bool :=
  if a.2 then a else (a.1 ++ b.1, b.2)

/-- Python `try: … except Exception: pass` — the body's exception is
swallowed. -/
def tryIgnore (a : List StopStep × Bool) : List StopStep × Bool := (a.1, false)

/-- Python `try: a finally: b` — `b` always runs; `a`'s exception then
re-raises (an exception of `b` would take precedence). -/
def tryFinally (a b : List StopStep × Bool) : List StopStep × Bool :=
  (a.1 ++ b.1, if b.2 then true else a.2)

/-- Embeds `OPCUAMQTTBridge.stop` (source lines 251–268), statement by
statement: per-handle unsubscribes each wrapped in `try/except pass`,
then `subscription.delete()` likewise, then `opc_client.disconnect()`
bare, all inside `try: … finally:`; the `finally` holds one
`try/except pass` around the offline-status publish followed by
`mqtt.disconnect()`.  Returns the ordered attempted steps and whether
an exception escapes `stop`. -/
def stop (hasSub : Bool) (handles : List Nat) (f : StopFaults) : List StopStep × Bool :=
  tryFinally
    (seqA
      (if hasSub then
        seqA
          (handles.foldl
            (fun acc h => seqA acc (tryIgnore (act (StopStep.unsub h) (f.unsubFails h))))
            ([], false))
          (tryIgnore (act StopStep.subDelete f.deleteFails))
      else ([], false))
      (act StopStep.opcDisconnect f.opcDisconnectFails))
    (tryIgnore
      (seqA (act StopStep.statusPublish f.publishFails)
        (act StopStep.mqttDisconnect f.mqttDisconnectFails)))

theorem foldl_unsubs (f : StopFaults) :
    ∀ (handles : List Nat) (acc : List StopStep),
      handles.foldl
        (fun acc h => seqA acc (tryIgnore (act (StopStep.unsub h) (f.unsubFails h))))
        (acc, false) =
      (acc ++ handles.map StopStep.unsub, false) := by
  intro handles
  induction handles with
  | nil => intro acc; simp
  | cons h hs ih =>
    intro acc
    rw [List.foldl_cons]
    have hstep :
        seqA (acc, false) (tryIgnore (act (StopStep.unsub h) (f.unsubFails h))) =
          (acc ++ [StopStep.unsub h], false) := by
      simp [seqA, tryIgnore, act]
    rw [hstep, ih (acc ++ [StopStep.unsub h])]
    simp

/-- C3 counterexample: when the offline-status publish raises, the
messaging disconnect is never attempted (both sit inside one
`try/except pass`), so "every later step is still attempted" fails. -/
theorem stop_skips_mqtt_disconnect_cex :
    StopStep.mqttDisconnect ∉
      (stop true [0] ⟨fun _ => false, false, false, true, false⟩).1 := by
  decide

/-- C3 (amended): shutdown attempts, in order, every per-handle
unsubscribe (each tolerating its own failure), the subscription delete,
the OPC UA session disconnect and the retained offline-status publish,
regardless of any earlier failure; the messaging disconnect is
attempted exactly when the offline-status publish does not raise; only
an OPC UA disconnect failure escapes `stop`. -/
theorem stop_attempt_order (hasSub : Bool) (handles : List Nat) (f : StopFaults) :
    (stop hasSub handles f).1 =
      (if hasSub then handles.map StopStep.unsub ++ [StopStep.subDelete] else []) ++
        [StopStep.opcDisconnect] ++ [StopStep.statusPublish] ++
        (if f.publishFails then [] else [StopStep.mqttDisconnect]) ∧
    (stop hasSub handles f).2 = f.opcDisconnectFails := by
  unfold stop
  have hfin :
      tryIgnore
        (seqA (act StopStep.statusPublish f.publishFails)
          (act StopStep.mqttDisconnect f.mqttDisconnectFails)) =
        ([StopStep.statusPublish] ++
          (if f.publishFails then [] else [StopStep.mqttDisconnect]), false) := by
    cases hp : f.publishFails <;> simp [seqA, tryIgnore, act, hp]
  rw [hfin]
  cases hasSub with
  | true =>
    rw [if_pos rfl, foldl_unsubs f handles []]
    simp [seqA, tryIgnore, act, tryFinally]
  | false =>
    rw [if_neg (by simp)]
    simp [seqA, tryIgnore, act, tryFinally]

/-! ### Startup node resolution (`start`) -/

/-- The node-resolution loop of `start` (source lines 223–226): for
each name in `NODES_SPEC` order, `get_node` either succeeds or raises
(`bad`); there is no per-item handler, so the first failure aborts the
loop and propagates out of `start`.  Returns (names resolved into
`self.nodes`, whether the loop aborted with an exception). -/
def resolveLoop (spec : List String) (bad : String → Bool) : List String × Bool :=
  match spec with
  | [] => ([], false)
  | n :: rest =>
    if bad n then ([], true)
    else
      let r := resolveLoop rest bad
      (n :: r.1, r.2)

/-- C4 counterexample: with the real `NODES_SPEC` order, a resolution
failure for `AcknFault` alone leaves `ActNo` (and every other variable)
unresolved and aborts startup — the claimed partial-failure tolerance
does not exist in the code. -/
theorem resolve_abort_cex :
    ("ActNo" ∈ nodeNames) ∧
    "ActNo" ∉ (resolveLoop nodeNames (fun n => n == "AcknFault")).1 ∧
    (resolveLoop nodeNames (fun n => n == "AcknFault")).2 = true := by
  decide

/-- C4 (amended): if resolving a variable's address raises, startup
aborts right there: exactly the variables strictly before the first
failing one are resolved, and the exception propagates (no variable is
marked unavailable, no continuation). -/
theorem resolveLoop_characterization (spec : List String) (bad : String → Bool) :
    (resolveLoop spec bad).1 = spec.takeWhile (fun n => !bad n) ∧
    (resolveLoop spec bad).2 = spec.any bad := by
  induction spec with
  | nil => exact ⟨rfl, rfl⟩
  | cons n rest ih =>
    by_cases hb : bad n = true
    · simp [resolveLoop, List.takeWhile_cons, List.any_cons, hb]
    · have hb' : bad n = false := by revert hb; cases bad n <;> simp
      simp [resolveLoop, List.takeWhile_cons, List.any_cons, hb', ih.1, ih.2]

end Bridge
